import Mathlib

/-!
Shallow embedding of `phone_numbers.py`: normalization and validation of
North American Numbering Plan (NANP) phone numbers, plus the directory
builder `read_numbers` that parses tab-separated `name<TAB>number` lines,
silently skips invalid numbers, and sorts entries by numeric value.

Python `str` values are modelled as `List Char`; fallible operations
(`raise` in Python) are modelled with `Except`.
-/

set_option maxRecDepth 100000

namespace PhoneNumbers

/-- The module-level `LETTER_TO_NUMBER` dict of `phone_numbers.py`: keypad
digit for each UPPERCASE letter, absent (`none`) for every other character.
Lowercase letters are deliberately not in the dict, mirroring the source. -/
def LETTER_TO_NUMBER : Char → Option Char
  | 'A' => some '2'
  | 'B' => some '2'
  | 'C' => some '2'
  | 'D' => some '3'
  | 'E' => some '3'
  | 'F' => some '3'
  | 'G' => some '4'
  | 'H' => some '4'
  | 'I' => some '4'
  | 'J' => some '5'
  | 'K' => some '5'
  | 'L' => some '5'
  | 'M' => some '6'
  | 'N' => some '6'
  | 'O' => some '6'
  | 'P' => some '7'
  | 'Q' => some '7'
  | 'R' => some '7'
  | 'S' => some '7'
  | 'T' => some '8'
  | 'U' => some '8'
  | 'V' => some '8'
  | 'W' => some '9'
  | 'X' => some '9'
  | 'Y' => some '9'
  | 'Z' => some '9'
  | _ => none

/-- One step of the translation loop in `PhoneNumber.__init__`:
`if char in LETTER_TO_NUMBER: stack += LETTER_TO_NUMBER[char] else: stack += char`. -/
def translateChar (c : Char) : Char :=
  match LETTER_TO_NUMBER c with
  | some d => d
  | none => c

/-- Membership in the character class kept by `re.sub(r'[^0-9a-zA-Z]', '', _)`:
ASCII digits (48-57), uppercase letters (65-90), lowercase letters (97-122). -/
def isPyAlnum (c : Char) : Bool :=
  (48 ≤ c.toNat && c.toNat ≤ 57) || (65 ≤ c.toNat && c.toNat ≤ 90) ||
    (97 ≤ c.toNat && c.toNat ≤ 122)

/-- ASCII digit check (codes 48-57), i.e. Python's `'0' <= c <= '9'`. -/
def pyIsDigit (c : Char) : Bool :=
  48 ≤ c.toNat && c.toNat ≤ 57

/-- ASCII lowercase-letter check (codes 97-122). -/
def pyIsLower (c : Char) : Bool :=
  97 ≤ c.toNat && c.toNat ≤ 122

/-- `re.sub(r'[^0-9a-zA-Z]', '', number_str)`: keep letters and digits only. -/
def clean (l : List Char) : List Char :=
  l.filter isPyAlnum

/-- The `stack` accumulation loop: translate each character. -/
def translate (l : List Char) : List Char :=
  l.map translateChar

/-- The three attributes set by `PhoneNumber.__init__`. -/
structure PhoneNumber where
  area_code : List Char
  exchange_code : List Char
  line_number : List Char
deriving DecidableEq

/-- The exceptions `PhoneNumber.__init__` can raise, by site:
`typeMismatch` is the `TypeError` (unreachable in this typed embedding),
`invalidLength` the `ValueError` at the length check,
`invalidCode` the `ValueError` at either code check. -/
inductive PhoneError
  | typeMismatch
  | invalidLength
  | invalidCode
deriving DecidableEq

deriving instance DecidableEq for Except

/-- The `invalid_codes` list of the source. -/
def invalid_codes : List (List Char) :=
  [['0','1','1'], ['1','1','1'], ['2','1','1'], ['3','1','1'], ['4','1','1'],
   ['5','1','1'], ['6','1','1'], ['7','1','1'], ['8','1','1'], ['9','1','1']]

/-- The two code checks at the end of `PhoneNumber.__init__` (lines 83-89).
`headD ' '` models Python's `[0]` indexing; every caller passes fields of
length 3. -/
def validate (p : PhoneNumber) : Except PhoneError PhoneNumber :=
  if p.area_code.headD ' ' = '0' ∨ p.area_code.headD ' ' = '1' ∨
      p.exchange_code.headD ' ' = '0' ∨ p.exchange_code.headD ' ' = '1' ∨
      p.exchange_code.drop 1 = ['1', '1'] then
    .error .invalidCode
  else if p.area_code ∈ invalid_codes ∨ p.exchange_code ∈ invalid_codes then
    .error .invalidCode
  else
    .ok p

/-- `PhoneNumber.__init__` after `str()` conversion and the `re.sub` strip:
`number_str` is the cleaned string; `stack` the translated one.  The slices
`stack[:3]`, `stack[3:6]`, `stack[6:]` (resp. `stack[1:4]`, `stack[4:7]`,
`stack[7:]`) become `take`/`drop` combinations. -/
def normalizeClean (number_str : List Char) : Except PhoneError PhoneNumber :=
  let stack := translate number_str
  if number_str.length = 10 then
    validate { area_code := stack.take 3, exchange_code := (stack.drop 3).take 3,
               line_number := stack.drop 6 }
  else if number_str.length = 11 ∧ number_str.headD ' ' = '1' then
    validate { area_code := (stack.drop 1).take 3, exchange_code := (stack.drop 4).take 3,
               line_number := stack.drop 7 }
  else
    .error .invalidLength

/-- `PhoneNumber(number)` for a string argument. -/
def normalize (number : String) : Except PhoneError PhoneNumber :=
  normalizeClean (clean number.data)

/-- Python `str(i)` for an integer: decimal digits, `'-'`-prefixed when negative. -/
def pyIntStr (i : Int) : List Char :=
  if i < 0 then '-' :: Nat.toDigits 10 i.natAbs else Nat.toDigits 10 i.natAbs

/-- `PhoneNumber(number)` for an integer argument: `str(number)` then the
same pipeline. -/
def normalizeInt (i : Int) : Except PhoneError PhoneNumber :=
  normalizeClean (clean (pyIntStr i))

/-- Base-10 value of a digit string, as Python `int` computes it on an
all-digits string. -/
def digitsVal (l : List Char) : Nat :=
  l.foldl (fun a c => 10 * a + (c.toNat - 48)) 0

/-- `PhoneNumber.__int__`: `int(f"{area}{exchange}{line}")`.  Python `int`
raises `ValueError` unless the (nonempty) string is all digits, hence the
`Option`. -/
def toInteger (p : PhoneNumber) : Option Nat :=
  let s := p.area_code ++ p.exchange_code ++ p.line_number
  if s ≠ [] ∧ s.all pyIsDigit then some (digitsVal s) else none

/-- Total sort key used to model the `__lt__`-based sort; agrees with
`toInteger` whenever the latter is defined. -/
def phoneKey (p : PhoneNumber) : Nat :=
  digitsVal (p.area_code ++ p.exchange_code ++ p.line_number)

/-- Whether `int()` succeeds on the concatenated fields. -/
def phoneAllDigits (p : PhoneNumber) : Bool :=
  (p.area_code ++ p.exchange_code ++ p.line_number).all pyIsDigit

/-- `PhoneNumber.__str__`: `f"({area}) {exchange}-{line}"`. -/
def toDisplayString (p : PhoneNumber) : String :=
  ⟨'(' :: (p.area_code ++ [')', ' '] ++ p.exchange_code ++ ['-'] ++ p.line_number)⟩

/-- Python `str.split("\t")`. -/
def pySplitTab : List Char → List (List Char)
  | [] => [[]]
  | c :: cs =>
    match pySplitTab cs with
    | [] => [[]]
    | h :: t => if c = '\t' then [] :: h :: t else (c :: h) :: t

/-- Python whitespace stripped by `str.strip()` (the characters that can
occur here): space, tab, newline, carriage return, vertical tab, form feed. -/
def pyIsSpace (c : Char) : Bool :=
  c = ' ' || c = '\t' || c = '\n' || c = '\r' || c.toNat = 11 || c.toNat = 12

/-- Python `str.strip()`. -/
def pyStrip (l : List Char) : List Char :=
  ((l.dropWhile pyIsSpace).reverse.dropWhile pyIsSpace).reverse

/-- The exceptions `read_numbers` itself can raise: `unpack` is the
`ValueError` from `name, number = line.strip().split("\t")` (outside the
`try`), `intCast` the `ValueError` from `int()` inside `__lt__` during the
sort. -/
inductive ReadError
  | unpack
  | intCast
deriving DecidableEq

/-- The loop of `read_numbers`: split each line, construct a `PhoneNumber`,
append on success, silently skip on `TypeError`/`ValueError` from the
constructor, and propagate the unpacking `ValueError` from a line that does
not split into exactly two fields. -/
def collectEntries : List (List Char) → Except ReadError (List (List Char × PhoneNumber))
  | [] => .ok []
  | line :: rest =>
    match pySplitTab (pyStrip line) with
    | [name, number] =>
      match normalizeClean (clean number) with
      | .ok p => (collectEntries rest).map (fun t => (name, p) :: t)
      | .error _ => collectEntries rest
    | _ => .error .unpack

/-- Comparison of directory entries by the embedded number, as
`tup_list.sort(key=lambda x: x[1])` compares via `PhoneNumber.__lt__`. -/
def entryLE (a b : List Char × PhoneNumber) : Prop :=
  phoneKey a.2 ≤ phoneKey b.2

instance : DecidableRel entryLE :=
  fun a b => inferInstanceAs (Decidable (phoneKey a.2 ≤ phoneKey b.2))

instance : IsTotal (List Char × PhoneNumber) entryLE :=
  ⟨fun a b => Nat.le_total (phoneKey a.2) (phoneKey b.2)⟩

instance : IsTrans (List Char × PhoneNumber) entryLE :=
  ⟨fun _ _ _ h h2 => Nat.le_trans h h2⟩

/-- `read_numbers`, over the list of input lines.  The sort is modelled by
the stable `List.insertionSort` (CPython's sort is also stable, so the two
agree extensionally).  `int()` inside `__lt__` raises on a number whose
fields retain letters; with at least two entries every entry takes part in
at least one comparison, with at most one entry no comparison happens, which
the guard reproduces. -/
def read_numbers (lines : List (List Char)) :
    Except ReadError (List (List Char × PhoneNumber)) :=
  match collectEntries lines with
  | .error e => .error e
  | .ok entries =>
    if entries.length ≤ 1 ∨ entries.all (fun e => phoneAllDigits e.2) then
      .ok (List.insertionSort entryLE entries)
    else
      .error .intCast

/-! ### Spec-side predicates (written from the spec's wording, for
refinement-style comparisons) -/

/-- The would-be decomposition of a cleaned input into the three fields,
before any validation: the 10-character slicing, or the 11-character slicing
with the leading character skipped. -/
def decompose (ns : List Char) : PhoneNumber :=
  let stack := translate ns
  if ns.length = 10 then
    { area_code := stack.take 3, exchange_code := (stack.drop 3).take 3,
      line_number := stack.drop 6 }
  else
    { area_code := (stack.drop 1).take 3, exchange_code := (stack.drop 4).take 3,
      line_number := stack.drop 7 }

/-- The spec's `InvalidCode` condition: areaCode or exchangeCode starts with
`'0'` or `'1'`, or lies in the reserved set, or the exchangeCode's last two
characters equal `"11"`. -/
def specInvalidCode (p : PhoneNumber) : Prop :=
  p.area_code.headD ' ' = '0' ∨ p.area_code.headD ' ' = '1' ∨
  p.exchange_code.headD ' ' = '0' ∨ p.exchange_code.headD ' ' = '1' ∨
  p.area_code ∈ invalid_codes ∨ p.exchange_code ∈ invalid_codes ∨
  p.exchange_code.drop 1 = ['1', '1']

/-- The spec's NANP structural rules for a decomposed number: first digit of
area and exchange codes in `'2'..'9'`, neither in the reserved set, exchange
not ending in `"11"`. -/
def specValidNANP (p : PhoneNumber) : Prop :=
  ('2' ≤ p.area_code.headD ' ' ∧ p.area_code.headD ' ' ≤ '9') ∧
  ('2' ≤ p.exchange_code.headD ' ' ∧ p.exchange_code.headD ' ' ≤ '9') ∧
  p.area_code ∉ invalid_codes ∧ p.exchange_code ∉ invalid_codes ∧
  p.exchange_code.drop 1 ≠ ['1', '1']

/-- The spec's keypad table, transcribed from its own wording:
A,B,C→2; D,E,F→3; G,H,I→4; J,K,L→5; M,N,O→6; P,Q,R,S→7; T,U,V→8; W,X,Y,Z→9. -/
def specKeypad (c : Char) : Option Char :=
  if c ∈ ['A', 'B', 'C'] then some '2'
  else if c ∈ ['D', 'E', 'F'] then some '3'
  else if c ∈ ['G', 'H', 'I'] then some '4'
  else if c ∈ ['J', 'K', 'L'] then some '5'
  else if c ∈ ['M', 'N', 'O'] then some '6'
  else if c ∈ ['P', 'Q', 'R', 'S'] then some '7'
  else if c ∈ ['T', 'U', 'V'] then some '8'
  else if c ∈ ['W', 'X', 'Y', 'Z'] then some '9'
  else none

/-- `str.upper()` on the ASCII characters that matter here. -/
def pyUpper (l : List Char) : List Char :=
  l.map Char.toUpper

/-! ### Character-level facts, settled by one pass over the 128 ASCII codes -/

/-- All 128 ASCII characters. -/
def asciiChars : List Char :=
  (List.range 128).map Char.ofNat

lemma mem_asciiChars {c : Char} (h : c.toNat < 128) : c ∈ asciiChars := by
  have h2 : c = Char.ofNat c.toNat := (Char.ofNat_toNat c).symm
  rw [h2]
  exact List.mem_map_of_mem _ (List.mem_range.mpr h)

lemma isPyAlnum_lt {c : Char} (h : isPyAlnum c = true) : c.toNat < 128 := by
  simp only [isPyAlnum, Bool.or_eq_true, Bool.and_eq_true, decide_eq_true_eq] at h
  omega

lemma asciiFacts : ∀ c ∈ asciiChars,
    (isPyAlnum c = true →
      (pyIsDigit (translateChar c) = true ∨ pyIsLower (translateChar c) = true)) ∧
    (isPyAlnum c = true → isPyAlnum (translateChar c) = true) ∧
    (pyIsDigit c = true → translateChar c = c) ∧
    (pyIsLower c = true → translateChar c = c) ∧
    translateChar (translateChar c) = translateChar c ∧
    translateChar c = (specKeypad c).getD c := by decide

lemma translateChar_digit_or_lower {c : Char} (h : isPyAlnum c = true) :
    pyIsDigit (translateChar c) = true ∨ pyIsLower (translateChar c) = true :=
  (asciiFacts c (mem_asciiChars (isPyAlnum_lt h))).1 h

lemma isPyAlnum_translateChar {c : Char} (h : isPyAlnum c = true) :
    isPyAlnum (translateChar c) = true :=
  (asciiFacts c (mem_asciiChars (isPyAlnum_lt h))).2.1 h

lemma pyIsDigit_isPyAlnum {c : Char} (h : pyIsDigit c = true) : isPyAlnum c = true := by
  simp only [pyIsDigit, Bool.and_eq_true, decide_eq_true_eq] at h
  simp only [isPyAlnum, Bool.or_eq_true, Bool.and_eq_true, decide_eq_true_eq]
  omega

lemma pyIsLower_isPyAlnum {c : Char} (h : pyIsLower c = true) : isPyAlnum c = true := by
  simp only [pyIsLower, Bool.and_eq_true, decide_eq_true_eq] at h
  simp only [isPyAlnum, Bool.or_eq_true, Bool.and_eq_true, decide_eq_true_eq]
  omega

lemma translateChar_of_digit {c : Char} (h : pyIsDigit c = true) : translateChar c = c :=
  (asciiFacts c (mem_asciiChars (isPyAlnum_lt (pyIsDigit_isPyAlnum h)))).2.2.1 h

lemma translateChar_of_lower {c : Char} (h : pyIsLower c = true) : translateChar c = c :=
  (asciiFacts c (mem_asciiChars (isPyAlnum_lt (pyIsLower_isPyAlnum h)))).2.2.2.1 h

lemma translateChar_idem {c : Char} (h : isPyAlnum c = true) :
    translateChar (translateChar c) = translateChar c :=
  (asciiFacts c (mem_asciiChars (isPyAlnum_lt h))).2.2.2.2.1

/-- Every character of the translated cleaned string is a digit or a
lowercase letter. -/
lemma mem_translate_clean {ns : List Char} {c : Char} (h : c ∈ translate (clean ns)) :
    pyIsDigit c = true ∨ pyIsLower c = true := by
  obtain ⟨c0, hc0, rfl⟩ := List.mem_map.mp h
  exact translateChar_digit_or_lower (List.of_mem_filter hc0)

/-! ### Behaviour of `validate` and the branches of `normalizeClean` -/

lemma validate_eq_ok {p q : PhoneNumber} :
    validate p = Except.ok q ↔ q = p ∧ ¬ specInvalidCode p := by
  unfold validate specInvalidCode
  split_ifs with h1 h2
  · constructor
    · intro h; simp at h
    · rintro ⟨-, hn⟩; exact absurd (by tauto) hn
  · constructor
    · intro h; simp at h
    · rintro ⟨-, hn⟩; exact absurd (by tauto) hn
  · constructor
    · intro h
      injection h with h
      exact ⟨h.symm, by tauto⟩
    · rintro ⟨rfl, -⟩; rfl

lemma validate_eq_error {p : PhoneNumber} {e : PhoneError} :
    validate p = Except.error e ↔ e = PhoneError.invalidCode ∧ specInvalidCode p := by
  unfold validate specInvalidCode
  split_ifs with h1 h2
  · constructor
    · intro h; injection h with h; exact ⟨h.symm, by tauto⟩
    · rintro ⟨rfl, -⟩; rfl
  · constructor
    · intro h; injection h with h; exact ⟨h.symm, by tauto⟩
    · rintro ⟨rfl, -⟩; rfl
  · constructor
    · intro h; simp at h
    · rintro ⟨-, hs⟩; exact absurd hs (by tauto)

lemma normalizeClean_of_len10 {ns : List Char} (h : ns.length = 10) :
    normalizeClean ns = validate (decompose ns) := by
  simp [normalizeClean, decompose, h]

lemma normalizeClean_of_len11 {ns : List Char} (h : ns.length = 11)
    (h1 : ns.headD ' ' = '1') :
    normalizeClean ns = validate (decompose ns) := by
  have h1' : ns.head?.getD ' ' = '1' := by simpa using h1
  simp [normalizeClean, decompose, h, h1']

lemma normalizeClean_of_badLen {ns : List Char}
    (h : ¬ (ns.length = 10 ∨ (ns.length = 11 ∧ ns.headD ' ' = '1'))) :
    normalizeClean ns = Except.error PhoneError.invalidLength := by
  have h1 : ¬ ns.length = 10 := fun hh => h (Or.inl hh)
  have h2 : ¬ (ns.length = 11 ∧ ns.headD ' ' = '1') := fun hh => h (Or.inr hh)
  simp only [normalizeClean]
  rw [if_neg h1, if_neg h2]

lemma decompose_of_len10 {m : List Char} (h : m.length = 10) :
    decompose m = { area_code := (translate m).take 3,
                    exchange_code := ((translate m).drop 3).take 3,
                    line_number := (translate m).drop 6 } := by
  simp [decompose, h]

lemma decompose_of_len11 {m : List Char} (h : m.length = 11) :
    decompose m = { area_code := ((translate m).drop 1).take 3,
                    exchange_code := ((translate m).drop 4).take 3,
                    line_number := (translate m).drop 7 } := by
  simp [decompose, h]

lemma length_translate (m : List Char) : (translate m).length = m.length := by
  simp [translate]

lemma clean_eq_self {l : List Char} (h : ∀ c ∈ l, isPyAlnum c = true) : clean l = l :=
  List.filter_eq_self.mpr h

lemma translate_eq_self {l : List Char} (h : ∀ c ∈ l, translateChar c = c) :
    translate l = l := by
  unfold translate
  rw [List.map_congr_left h]
  simp

/-- Core invariant: a successful `normalizeClean` on an all-alphanumeric
string yields fields of widths 3, 3, 4, every character a digit or a
lowercase letter, and a number that `validate` accepts. -/
lemma normalizeClean_ok_fields {m : List Char} {p : PhoneNumber}
    (hm : ∀ c ∈ m, isPyAlnum c = true)
    (hok : normalizeClean m = Except.ok p) :
    p.area_code.length = 3 ∧ p.exchange_code.length = 3 ∧ p.line_number.length = 4 ∧
    (∀ c ∈ p.area_code ++ p.exchange_code ++ p.line_number,
        pyIsDigit c = true ∨ pyIsLower c = true) ∧
    validate p = Except.ok p := by
  have hmem : ∀ c ∈ translate m, pyIsDigit c = true ∨ pyIsLower c = true := by
    intro c hc
    obtain ⟨c0, hc0, rfl⟩ := List.mem_map.mp hc
    exact translateChar_digit_or_lower (hm c0 hc0)
  by_cases h10 : m.length = 10
  · rw [normalizeClean_of_len10 h10] at hok
    obtain ⟨hp, hspec⟩ := validate_eq_ok.mp hok
    subst hp
    have hst : (translate m).length = 10 := by rw [length_translate, h10]
    refine ⟨?_, ?_, ?_, ?_, validate_eq_ok.mpr ⟨rfl, hspec⟩⟩
    · simp [decompose_of_len10 h10, List.length_take, hst]
    · simp [decompose_of_len10 h10, List.length_take, List.length_drop, hst]
    · simp [decompose_of_len10 h10, List.length_drop, hst]
    · rw [decompose_of_len10 h10]
      intro c hc
      simp only [List.mem_append] at hc
      rcases hc with (hc | hc) | hc
      · exact hmem c ((List.take_sublist _ _).subset hc)
      · exact hmem c ((List.drop_sublist _ _).subset ((List.take_sublist _ _).subset hc))
      · exact hmem c ((List.drop_sublist _ _).subset hc)
  · by_cases h11 : m.length = 11 ∧ m.headD ' ' = '1'
    · rw [normalizeClean_of_len11 h11.1 h11.2] at hok
      obtain ⟨hp, hspec⟩ := validate_eq_ok.mp hok
      subst hp
      have hst : (translate m).length = 11 := by rw [length_translate, h11.1]
      refine ⟨?_, ?_, ?_, ?_, validate_eq_ok.mpr ⟨rfl, hspec⟩⟩
      · simp [decompose_of_len11 h11.1, List.length_take, List.length_drop, hst]
      · simp [decompose_of_len11 h11.1, List.length_take, List.length_drop, hst]
      · simp [decompose_of_len11 h11.1, List.length_drop, hst]
      · rw [decompose_of_len11 h11.1]
        intro c hc
        simp only [List.mem_append] at hc
        rcases hc with (hc | hc) | hc
        · exact hmem c ((List.drop_sublist _ _).subset ((List.take_sublist _ _).subset hc))
        · exact hmem c ((List.drop_sublist _ _).subset ((List.take_sublist _ _).subset hc))
        · exact hmem c ((List.drop_sublist _ _).subset hc)
    · rw [normalizeClean_of_badLen (by tauto)] at hok
      simp at hok

/-- On a length-10 string the decomposed fields concatenate back to the
whole translated string. -/
lemma decompose_concat {m : List Char} (h : m.length = 10) :
    (decompose m).area_code ++ (decompose m).exchange_code ++ (decompose m).line_number =
      translate m := by
  rw [decompose_of_len10 h]
  have h63 : (translate m).drop 6 = ((translate m).drop 3).drop 3 := by
    simp [List.drop_drop]
  simp only [h63, List.append_assoc, List.take_append_drop]

lemma digitsVal_eq_ofDigits (l : List Char) :
    digitsVal l = Nat.ofDigits 10 ((l.map (fun c => c.toNat - 48)).reverse) := by
  induction l using List.reverseRecOn with
  | nil => simp [digitsVal, Nat.ofDigits]
  | append_singleton xs x ih =>
    have hl : digitsVal (xs ++ [x]) = 10 * digitsVal xs + (x.toNat - 48) := by
      simp [digitsVal, List.foldl_append]
    rw [hl, ih]
    simp [Nat.ofDigits_cons]
    ring

instance (p : PhoneNumber) : Decidable (specInvalidCode p) := by
  unfold specInvalidCode
  infer_instance

instance (p : PhoneNumber) : Decidable (specValidNANP p) := by
  unfold specValidNANP
  infer_instance

/-- A character at least `'2'` is neither `'0'` nor `'1'`. -/
lemma ne_zero_one_of_ge_two {x : Char} (h : '2' ≤ x) : x ≠ '0' ∧ x ≠ '1' := by
  have h2 : 50 ≤ x.toNat := by
    simpa [Char.le_def] using h
  constructor
  · rintro rfl
    exact absurd h2 (by decide)
  · rintro rfl
    exact absurd h2 (by decide)

lemma specValidNANP_not_invalid {p : PhoneNumber} (h : specValidNANP p) :
    ¬ specInvalidCode p := by
  obtain ⟨⟨ha2, -⟩, ⟨he2, -⟩, hna, hne, hn11⟩ := h
  obtain ⟨ha0, ha1⟩ := ne_zero_one_of_ge_two ha2
  obtain ⟨he0, he1⟩ := ne_zero_one_of_ge_two he2
  unfold specInvalidCode
  tauto

/-- Under a well-formed cleaned length, `normalizeClean` is `validate` after
decomposition: failure is `invalidCode` exactly on the spec condition, and
otherwise the decomposition is returned unchanged. -/
lemma normalizeClean_code_iff {m : List Char}
    (h : m.length = 10 ∨ (m.length = 11 ∧ m.headD ' ' = '1')) :
    (normalizeClean m = Except.error PhoneError.invalidCode ↔
      specInvalidCode (decompose m)) ∧
    (¬ specInvalidCode (decompose m) →
      normalizeClean m = Except.ok (decompose m)) := by
  have heq : normalizeClean m = validate (decompose m) := by
    rcases h with h | ⟨h, h1⟩
    · exact normalizeClean_of_len10 h
    · exact normalizeClean_of_len11 h h1
  rw [heq]
  refine ⟨⟨fun hb => (validate_eq_error.mp hb).2,
          fun hs => validate_eq_error.mpr ⟨rfl, hs⟩⟩,
          fun hn => validate_eq_ok.mpr ⟨rfl, hn⟩⟩

/-- Claim C5: for every string or integer input whose cleaned (letters and
digits) form has a length other than 10, and other than 11 with the cleaned
string starting with the literal digit `'1'`, `normalize` fails with
`InvalidLength`. -/
theorem badLength_invalidLength :
    (∀ s : String,
      ¬ ((clean s.data).length = 10 ∨
          ((clean s.data).length = 11 ∧ (clean s.data).headD ' ' = '1')) →
      normalize s = Except.error PhoneError.invalidLength) ∧
    (∀ i : Int,
      ¬ ((clean (pyIntStr i)).length = 10 ∨
          ((clean (pyIntStr i)).length = 11 ∧ (clean (pyIntStr i)).headD ' ' = '1')) →
      normalizeInt i = Except.error PhoneError.invalidLength) :=
  ⟨fun _ h => normalizeClean_of_badLen h, fun _ h => normalizeClean_of_badLen h⟩

theorem badLength_invalidLength_witness :
    normalize "555-0100" = Except.error PhoneError.invalidLength :=
  badLength_invalidLength.1 "555-0100" (by decide)

/-- Claim C4: for every string or integer input whose cleaned form has
length 10, or length 11 starting with a literal `'1'`, `normalize` fails
with `InvalidCode` exactly when the decomposed area or exchange code starts
with `'0'` or `'1'`, lies in the reserved set, or the exchange code ends in
`"11"`; when that condition fails the decomposition itself is returned, so
the line number is never rejected. -/
theorem invalidCode_characterization :
    (∀ s : String,
      ((clean s.data).length = 10 ∨
        ((clean s.data).length = 11 ∧ (clean s.data).headD ' ' = '1')) →
      ((normalize s = Except.error PhoneError.invalidCode ↔
          specInvalidCode (decompose (clean s.data))) ∧
        (¬ specInvalidCode (decompose (clean s.data)) →
          normalize s = Except.ok (decompose (clean s.data))))) ∧
    (∀ i : Int,
      ((clean (pyIntStr i)).length = 10 ∨
        ((clean (pyIntStr i)).length = 11 ∧ (clean (pyIntStr i)).headD ' ' = '1')) →
      ((normalizeInt i = Except.error PhoneError.invalidCode ↔
          specInvalidCode (decompose (clean (pyIntStr i)))) ∧
        (¬ specInvalidCode (decompose (clean (pyIntStr i))) →
          normalizeInt i = Except.ok (decompose (clean (pyIntStr i)))))) :=
  ⟨fun _ h => normalizeClean_code_iff h, fun _ h => normalizeClean_code_iff h⟩

theorem invalidCode_characterization_witness :
    normalize "123-456-7890" = Except.error PhoneError.invalidCode :=
  ((invalidCode_characterization.1 "123-456-7890" (Or.inl (by decide))).1).mpr (by decide)

/-- Claim C1: for every 10-character digits-only input whose implied area
and exchange codes satisfy the NANP structural rules, `normalize` succeeds
and `toInteger` of the result is the input read as a base-10 integer. -/
theorem valid_tenDigit_roundtrip (s : String)
    (hlen : s.data.length = 10)
    (hdig : ∀ c ∈ s.data, pyIsDigit c = true)
    (hval : specValidNANP (decompose s.data)) :
    normalize s = Except.ok (decompose s.data) ∧
    toInteger (decompose s.data) =
      some (Nat.ofDigits 10 ((s.data.map (fun c => c.toNat - 48)).reverse)) := by
  have halnum : ∀ c ∈ s.data, isPyAlnum c = true :=
    fun c hc => pyIsDigit_isPyAlnum (hdig c hc)
  have hclean : clean s.data = s.data := clean_eq_self halnum
  have htr : translate s.data = s.data :=
    translate_eq_self (fun c hc => translateChar_of_digit (hdig c hc))
  have hnotspec : ¬ specInvalidCode (decompose s.data) := specValidNANP_not_invalid hval
  have hcc : (decompose s.data).area_code ++ (decompose s.data).exchange_code ++
      (decompose s.data).line_number = s.data := by
    rw [decompose_concat hlen, htr]
  constructor
  · show normalizeClean (clean s.data) = _
    rw [hclean, normalizeClean_of_len10 hlen]
    exact validate_eq_ok.mpr ⟨rfl, hnotspec⟩
  · show (if _ ≠ [] ∧ _ then _ else _) = _
    rw [hcc] at *
    rw [if_pos]
    · rw [digitsVal_eq_ofDigits]
    · refine ⟨fun he => ?_, List.all_eq_true.mpr hdig⟩
      rw [he] at hlen
      simp at hlen

theorem valid_tenDigit_roundtrip_witness :
    normalize "2125550100" = Except.ok (decompose "2125550100".data) ∧
    toInteger (decompose "2125550100".data) =
      some (Nat.ofDigits 10 (("2125550100".data.map (fun c => c.toNat - 48)).reverse)) :=
  valid_tenDigit_roundtrip "2125550100" (by decide) (by decide) (by decide)

/-- Claim C6: prepending a literal `'1'` to a 10-character cleaned input on
which `normalize` succeeds again succeeds, with identical fields. -/
theorem leading_one_stripped (s : String) (p : PhoneNumber)
    (hlen : s.data.length = 10)
    (hcl : clean s.data = s.data)
    (hok : normalize s = Except.ok p) :
    normalize ("1" ++ s) = Except.ok p := by
  have hd : ("1" ++ s).data = '1' :: s.data := by
    rw [String.data_append]
    rfl
  have hlen11 : ('1' :: s.data).length = 11 := by
    simp [hlen]
  show normalizeClean (clean ("1" ++ s).data) = _
  rw [hd]
  have hc1 : clean ('1' :: s.data) = '1' :: s.data := by
    show List.filter _ _ = _
    rw [List.filter_cons]
    simp only [show isPyAlnum '1' = true from by decide, if_true]
    rw [show List.filter isPyAlnum s.data = s.data from hcl]
  rw [hc1, normalizeClean_of_len11 hlen11 rfl]
  have hdec : decompose ('1' :: s.data) = decompose s.data := by
    rw [decompose_of_len11 hlen11, decompose_of_len10 hlen]
    rfl
  rw [hdec]
  have hok2 : normalizeClean s.data = Except.ok p := by
    rw [← hcl]
    exact hok
  rw [← normalizeClean_of_len10 hlen]
  exact hok2

theorem leading_one_stripped_witness :
    normalize ("1" ++ "2125550100") =
      Except.ok { area_code := ['2','1','2'], exchange_code := ['5','5','5'],
                  line_number := ['0','1','0','0'] } :=
  leading_one_stripped "2125550100"
    { area_code := ['2','1','2'], exchange_code := ['5','5','5'],
      line_number := ['0','1','0','0'] }
    (by decide) (by decide) (by decide)

/-- A sample valid number, `(212) 555-0100`. -/
def pn212 : PhoneNumber :=
  { area_code := ['2','1','2'], exchange_code := ['5','5','5'],
    line_number := ['0','1','0','0'] }

/-- Claim C2, counterexample: an all-lowercase input passes every check, so
a successfully constructed number can carry letters in all three fields. -/
theorem fields_all_digits_cex :
    normalize "aaaaaaaaaa" =
      Except.ok { area_code := ['a','a','a'], exchange_code := ['a','a','a'],
                  line_number := ['a','a','a','a'] } ∧
    pyIsDigit 'a' = false := by decide

/-- Claim C2 as amended: on every success the fields have widths 3, 3, 4 and
every character is an ASCII digit or a lowercase letter (uppercase letters
were translated to digits), and the area code does not start with `'0'` or
`'1'`. -/
theorem normalize_ok_invariants (s : String) (p : PhoneNumber)
    (hok : normalize s = Except.ok p) :
    p.area_code.length = 3 ∧ p.exchange_code.length = 3 ∧ p.line_number.length = 4 ∧
    (∀ c ∈ p.area_code ++ p.exchange_code ++ p.line_number,
        pyIsDigit c = true ∨ pyIsLower c = true) ∧
    p.area_code.headD ' ' ≠ '0' ∧ p.area_code.headD ' ' ≠ '1' := by
  have hm : ∀ c ∈ clean s.data, isPyAlnum c = true := fun _ hc => List.of_mem_filter hc
  obtain ⟨h1, h2, h3, h4, h5⟩ := normalizeClean_ok_fields hm hok
  have hnot := (validate_eq_ok.mp h5).2
  have hhd : ¬ (p.area_code.headD ' ' = '0') ∧ ¬ (p.area_code.headD ' ' = '1') := by
    unfold specInvalidCode at hnot
    tauto
  exact ⟨h1, h2, h3, h4, hhd.1, hhd.2⟩

theorem normalize_ok_invariants_witness :
    pn212.area_code.length = 3 ∧ pn212.area_code.headD ' ' ≠ '0' := by
  have h := normalize_ok_invariants "2125550100" pn212 (by decide)
  exact ⟨h.1, h.2.2.2.2.1⟩

/-- Claim C3, counterexample: `normalize` is not case-insensitive — on
`"1-800-flowers"` the lowercase letters pass through untranslated, while the
uppercased input maps them to keypad digits, giving a different result. -/
theorem case_insensitive_cex :
    normalize "1-800-flowers" ≠ normalize ⟨pyUpper "1-800-flowers".data⟩ := by decide

lemma toUpper_of_not_lower {c : Char} (h : pyIsLower c = false) : c.toUpper = c := by
  have h' : ¬ (c.toNat ≥ 97 ∧ c.toNat ≤ 122) := by
    simp [pyIsLower] at h
    omega
  show (if c.toNat ≥ 97 ∧ c.toNat ≤ 122 then Char.ofNat (c.toNat - 32) else c) = c
  rw [if_neg h']

/-- Claim C3 as amended: only UPPERCASE letters are translated (exactly per
the spec's keypad table); lowercase letters pass through unchanged, so
uppercasing is a no-op for `normalize` only on inputs without lowercase
letters. -/
theorem uppercase_only_keypad :
    (∀ s : String, (∀ c ∈ s.data, pyIsLower c = false) →
      normalize s = normalize ⟨pyUpper s.data⟩) ∧
    (∀ c ∈ asciiChars, translateChar c = (specKeypad c).getD c) ∧
    (∀ c ∈ asciiChars, pyIsLower c = true → translateChar c = c) := by
  refine ⟨?_, by decide, by decide⟩
  intro s h
  have hup : pyUpper s.data = s.data := by
    unfold pyUpper
    rw [List.map_congr_left (fun c hc => toUpper_of_not_lower (h c hc))]
    simp
  show _ = normalizeClean (clean (String.data ⟨pyUpper s.data⟩))
  rw [show String.data ⟨pyUpper s.data⟩ = pyUpper s.data from rfl, hup]
  rfl

theorem uppercase_only_keypad_witness :
    normalize "1-800-FLOWERS" = normalize ⟨pyUpper "1-800-FLOWERS".data⟩ :=
  uppercase_only_keypad.1 "1-800-FLOWERS" (by decide)

/-- Claim C8: re-normalizing the display string `"(AAA) EEE-LLLL"` of any
successfully normalized number succeeds and returns the very same number
(hence in particular one equal under the `toInteger` ordering). -/
theorem display_roundtrip (s : String) (p : PhoneNumber)
    (hok : normalize s = Except.ok p) :
    normalize (toDisplayString p) = Except.ok p := by
  have hm : ∀ c ∈ clean s.data, isPyAlnum c = true := fun _ hc => List.of_mem_filter hc
  obtain ⟨h1, h2, h3, h4, h5⟩ := normalizeClean_ok_fields hm hok
  have hfield : ∀ c, (c ∈ p.area_code ∨ c ∈ p.exchange_code ∨ c ∈ p.line_number) →
      isPyAlnum c = true ∧ translateChar c = c := by
    intro c hc
    have hc2 : c ∈ p.area_code ++ p.exchange_code ++ p.line_number := by
      simp only [List.mem_append]
      tauto
    rcases h4 c hc2 with hd | hl
    · exact ⟨pyIsDigit_isPyAlnum hd, translateChar_of_digit hd⟩
    · exact ⟨pyIsLower_isPyAlnum hl, translateChar_of_lower hl⟩
  have hca : List.filter isPyAlnum p.area_code = p.area_code :=
    clean_eq_self (fun c hc => (hfield c (Or.inl hc)).1)
  have hce : List.filter isPyAlnum p.exchange_code = p.exchange_code :=
    clean_eq_self (fun c hc => (hfield c (Or.inr (Or.inl hc))).1)
  have hcl : List.filter isPyAlnum p.line_number = p.line_number :=
    clean_eq_self (fun c hc => (hfield c (Or.inr (Or.inr hc))).1)
  show normalizeClean (clean (toDisplayString p).data) = _
  have hdata : clean (toDisplayString p).data =
      p.area_code ++ (p.exchange_code ++ p.line_number) := by
    show List.filter _ ('(' :: (p.area_code ++ [')', ' '] ++ p.exchange_code ++
        ['-'] ++ p.line_number)) = _
    simp only [List.filter_cons, List.filter_append, List.filter_nil, hca, hce, hcl,
      show isPyAlnum '(' = false from by decide, show isPyAlnum ')' = false from by decide,
      show isPyAlnum ' ' = false from by decide, show isPyAlnum '-' = false from by decide,
      if_false, Bool.false_eq_true, List.append_nil, List.append_assoc, List.nil_append]
  rw [hdata]
  have hlen10 : (p.area_code ++ (p.exchange_code ++ p.line_number)).length = 10 := by
    simp [h1, h2, h3]
  rw [normalizeClean_of_len10 hlen10]
  have htr2 : translate (p.area_code ++ (p.exchange_code ++ p.line_number)) =
      p.area_code ++ (p.exchange_code ++ p.line_number) := by
    refine translate_eq_self (fun c hc => ?_)
    apply And.right
    apply hfield
    simpa [List.mem_append] using hc
  have hdec : decompose (p.area_code ++ (p.exchange_code ++ p.line_number)) = p := by
    rw [decompose_of_len10 hlen10, htr2]
    have t2 : (p.area_code ++ (p.exchange_code ++ p.line_number)).drop 3 =
        p.exchange_code ++ p.line_number := List.drop_left' h1
    have t4 : (p.area_code ++ (p.exchange_code ++ p.line_number)).drop 6 =
        p.line_number := by
      have h6 : (p.area_code ++ (p.exchange_code ++ p.line_number)).drop 6 =
          ((p.area_code ++ (p.exchange_code ++ p.line_number)).drop 3).drop 3 := by
        simp [List.drop_drop]
      rw [h6, t2, List.drop_left' h2]
    rw [List.take_left' h1, t2, List.take_left' h2, t4]
  rw [hdec]
  exact h5

theorem display_roundtrip_witness :
    normalize (toDisplayString pn212) = Except.ok pn212 :=
  display_roundtrip "2125550100" pn212 (by decide)

/-- Claim C10: an integer input behaves exactly like its decimal string with
the sign stripped; in particular a negative input yields the same number as
the corresponding positive one. -/
theorem integer_input_strips_sign :
    (∀ i : Int, normalizeInt i = normalizeClean (clean (Nat.toDigits 10 i.natAbs))) ∧
    normalizeInt (-2125550100) = Except.ok pn212 ∧
    normalizeInt 2125550100 = Except.ok pn212 := by
  refine ⟨?_, by decide, by decide⟩
  intro i
  unfold normalizeInt pyIntStr
  split_ifs with h
  · show normalizeClean (List.filter _ ('-' :: _)) = _
    rw [List.filter_cons]
    simp only [show isPyAlnum '-' = false from by decide, if_false, Bool.false_eq_true]
    rfl
  · rfl

lemma toInteger_eq_phoneKey {p : PhoneNumber} (hnd : phoneAllDigits p = true)
    (hne : p.area_code ≠ []) : toInteger p = some (phoneKey p) := by
  unfold toInteger phoneKey
  rw [if_pos]
  constructor
  · intro hnil
    simp only [List.append_eq_nil] at hnil
    exact hne hnil.1.1
  · exact hnd

/-- Every entry collected by the loop of `read_numbers` came out of a
successful `PhoneNumber` construction. -/
lemma collectEntries_mem {lines : List (List Char)}
    {entries : List (List Char × PhoneNumber)}
    (h : collectEntries lines = Except.ok entries) :
    ∀ e ∈ entries, ∃ num : List Char, normalizeClean (clean num) = Except.ok e.2 := by
  induction lines generalizing entries with
  | nil =>
    injection h with h
    subst h
    intro e he
    simp at he
  | cons hd tl ih =>
    rcases hsp : pySplitTab (pyStrip hd) with _ | ⟨a, _ | ⟨b, _ | ⟨d, t⟩⟩⟩
    · rw [show collectEntries (hd :: tl) = Except.error ReadError.unpack from by
        simp [collectEntries, hsp]] at h
      simp at h
    · rw [show collectEntries (hd :: tl) = Except.error ReadError.unpack from by
        simp [collectEntries, hsp]] at h
      simp at h
    · cases hn : normalizeClean (clean b) with
      | ok p =>
        rw [show collectEntries (hd :: tl) =
            (collectEntries tl).map (fun t => (a, p) :: t) from by
          simp [collectEntries, hsp, hn]] at h
        cases hct : collectEntries tl with
        | error e => rw [hct] at h; simp [Except.map] at h
        | ok ts =>
          rw [hct] at h
          simp only [Except.map] at h
          injection h with h
          subst h
          intro e he
          rcases List.mem_cons.mp he with rfl | he2
          · exact ⟨b, hn⟩
          · exact ih hct e he2
      | error err =>
        rw [show collectEntries (hd :: tl) = collectEntries tl from by
          simp [collectEntries, hsp, hn]] at h
        exact ih h
    · rw [show collectEntries (hd :: tl) = Except.error ReadError.unpack from by
        simp [collectEntries, hsp]] at h
      simp at h

/-- Claim C7: every entry list `read_numbers` returns is sorted ascending by
the numeric value of the embedded number; moreover whenever the list has at
least two entries, Python's `int()` is defined on every entry and equals
that sort key. -/
theorem read_numbers_sorted :
    ∀ (lines : List (List Char)) (l : List (List Char × PhoneNumber)),
      read_numbers lines = Except.ok l →
      List.Chain' (fun a b => phoneKey a.2 ≤ phoneKey b.2) l ∧
      (2 ≤ l.length → ∀ e ∈ l, toInteger e.2 = some (phoneKey e.2)) := by
  intro lines l hok
  unfold read_numbers at hok
  cases hce : collectEntries lines with
  | error e => rw [hce] at hok; simp at hok
  | ok entries =>
    rw [hce] at hok
    have hok2 : (if entries.length ≤ 1 ∨ (entries.all fun e => phoneAllDigits e.2) = true
        then Except.ok (List.insertionSort entryLE entries)
        else Except.error ReadError.intCast) = Except.ok l := hok
    by_cases hguard : entries.length ≤ 1 ∨ (entries.all fun e => phoneAllDigits e.2) = true
    · rw [if_pos hguard] at hok2
      injection hok2 with hok
      subst hok
      refine ⟨List.Pairwise.chain' (List.sorted_insertionSort entryLE entries), ?_⟩
      intro h2 e he
      have hmem : e ∈ entries := (List.mem_insertionSort entryLE).mp he
      have hlen : (List.insertionSort entryLE entries).length = entries.length :=
        List.length_insertionSort entryLE entries
      have hall : entries.all (fun e => phoneAllDigits e.2) = true := by
        rcases hguard with hle | hall
        · exfalso; omega
        · exact hall
      have hdig : phoneAllDigits e.2 = true := by
        simpa using List.all_eq_true.mp hall e hmem
      obtain ⟨num, hnum⟩ := collectEntries_mem hce e hmem
      have hf := normalizeClean_ok_fields (fun _ hc => List.of_mem_filter hc) hnum
      have hne : e.2.area_code ≠ [] := by
        intro hnil
        have h3 := hf.1
        rw [hnil] at h3
        simp at h3
      exact toInteger_eq_phoneKey hdig hne
    · rw [if_neg hguard] at hok2
      simp at hok2

theorem read_numbers_sorted_witness :
    List.Chain' (fun a b => phoneKey a.2 ≤ phoneKey b.2)
      [("Bob".data, { area_code := ['2','0','2'], exchange_code := ['5','5','5'],
                      line_number := ['0','1','9','9'] }),
       ("Alice".data, pn212)] :=
  (read_numbers_sorted ["Alice\t212-555-0100".data, "Bob\t(202) 555-0199".data]
    [("Bob".data, { area_code := ['2','0','2'], exchange_code := ['5','5','5'],
                    line_number := ['0','1','9','9'] }),
     ("Alice".data, pn212)] (by decide)).1

/-- A line whose stripped form does not split on tab into exactly two fields
makes the collection loop raise. -/
lemma collectEntries_error_of_badSplit :
    ∀ (lines : List (List Char)),
      (∃ line ∈ lines, (pySplitTab (pyStrip line)).length ≠ 2) →
      collectEntries lines = Except.error ReadError.unpack := by
  intro lines
  induction lines with
  | nil =>
    rintro ⟨line, h, -⟩
    simp at h
  | cons hd tl ih =>
    rintro ⟨line, hmem, hbad⟩
    rcases List.mem_cons.mp hmem with rfl | hmem2
    · rcases hsp : pySplitTab (pyStrip line) with _ | ⟨a, _ | ⟨b, _ | ⟨d, t⟩⟩⟩
      · simp [collectEntries, hsp]
      · simp [collectEntries, hsp]
      · exact absurd (by rw [hsp]; rfl) hbad
      · simp [collectEntries, hsp]
    · have htl := ih ⟨line, hmem2, hbad⟩
      rcases hsp : pySplitTab (pyStrip hd) with _ | ⟨a, _ | ⟨b, _ | ⟨d, t⟩⟩⟩
      · simp [collectEntries, hsp]
      · simp [collectEntries, hsp]
      · cases hn : normalizeClean (clean b) with
        | ok p => simp [collectEntries, hsp, hn, htl, Except.map]
        | error err => simp [collectEntries, hsp, hn, htl]
      · simp [collectEntries, hsp]

/-- Claim C9: the silent-skip filter covers only number construction; a line
that does not split on tab into exactly two fields makes `read_numbers`
raise, and no entry list is returned, regardless of the other lines. -/
theorem malformed_line_propagates :
    ∀ (lines : List (List Char)) (line : List Char),
      line ∈ lines → (pySplitTab (pyStrip line)).length ≠ 2 →
      read_numbers lines = Except.error ReadError.unpack := by
  intro lines line hm hb
  unfold read_numbers
  rw [collectEntries_error_of_badSplit lines ⟨line, hm, hb⟩]

theorem malformed_line_propagates_witness :
    read_numbers ["A\tB\tC".data, "Alice\t212-555-0100".data] =
      Except.error ReadError.unpack :=
  malformed_line_propagates _ ("A\tB\tC".data) (by decide) (by decide)

end PhoneNumbers
